import Mathlib

/- Shallow embedding of the gowww/compress gzip middleware (src/handler.go):
the string and integer helpers the handler calls, a spec-modelled gzip codec
and real-channel contract for the collaborators outside src/, the interceptor
state machine itself, and proofs about them. -/

namespace Compress

set_option maxRecDepth 8192

-- Bytes are natural numbers (0 to 255 in intended use).
abbrev Byte := Nat

-- Models matching a leading segment of a Go byte or rune slice.
def listStartsWith {α : Type} [DecidableEq α] : List α → List α → Bool
  | _, [] => true
  | [], _ :: _ => false
  | a :: s, b :: p => if a = b then listStartsWith s p else false

-- Models Go strings.Contains, on exploded character lists.
def listContainsSeg {α : Type} [DecidableEq α] : List α → List α → Bool
  | [], sub => listStartsWith ([] : List α) sub
  | a :: t, sub => listStartsWith (a :: t) sub || listContainsSeg t sub

-- Go strings.Contains on strings (handler.go:71).
def goContains (s sub : String) : Bool :=
  listContainsSeg s.toList sub.toList

-- Decimal digit run to a number; none when empty or a non-digit appears.
-- This is the syntax Go strconv.Atoi accepts after the optional sign.
def digitsVal (l : List Char) : Option Nat :=
  if l = [] then none
  else if l.all Char.isDigit then
    some (l.foldl (fun n c => 10 * n + (c.toNat - 48)) 0)
  else none

-- Models Go strconv.Atoi as used at handler.go:118: the error is discarded
-- there, so a syntax error behaves as the zero value. On range overflow Go
-- returns a clamped value of the same sign, and the caller only tests the
-- sign (cl <= 0), so the unbounded integer here is branch-equivalent.
def goAtoi (s : String) : Int :=
  match s.toList with
  | '+' :: rest => (digitsVal rest).elim 0 (fun n => (n : Int))
  | '-' :: rest => (digitsVal rest).elim 0 (fun n => -(n : Int))
  | l => (digitsVal l).elim 0 (fun n => (n : Int))

-- The media-type key the handler looks up in the denylist: the part before
-- any ';' parameter delimiter (strings.IndexByte, handler.go:130), then
-- lower-cased (handler.go:133; media types are ASCII, where Char.toLower
-- agrees with Go strings.ToLower).
def gzipKey (ct : String) : String :=
  String.mk ((ct.toList.takeWhile (fun c => c ≠ ';')).map Char.toLower)

/-- Modelled from the spec: `http.DetectContentType` (Go standard library, not
part of src/) sniffs a media type from the first chunk's bytes; the spec makes
sniff correctness an external collaborator's contract, and the repository
tests exercise a PDF magic, an HTML doctype and a generic fallback, which this
model reproduces; like the real sniffer it never returns the empty string. -/
def detectContentType (b : List Byte) : String :=
  if listStartsWith b [37, 80, 68, 70, 45] then "application/pdf"
  else if listStartsWith b [60, 33, 68, 79, 67, 84, 89, 80, 69, 32, 72, 84, 77, 76] then
    "text/html; charset=utf-8"
  else "application/octet-stream"

-- The minimal size (in bytes) a content needs to have to be gzipped
-- (handler.go:23).
def gzippableMinSize : Nat := 1400

-- The custom list of media types referring to already compressed content
-- (handler.go:31-49).
def notGzippableTypes : List String :=
  ["application/font-woff", "application/gzip", "application/pdf",
   "application/zip", "audio/mp4", "audio/mpeg", "audio/webm",
   "image/gif", "image/jpeg", "image/png", "image/webp",
   "video/h264", "video/mp4", "video/mpeg", "video/ogg", "video/vp8",
   "video/webm"]

-- Two-byte little-endian encoding (the argument is at most 65535 at every
-- use site).
def le16 (n : Nat) : List Byte := [n % 256, n / 256]

def le32 (n : Nat) : List Byte :=
  [n % 256, n / 256 % 256, n / 2 ^ 16 % 256, n / 2 ^ 24 % 256]

-- One reflected CRC-32 bit round (polynomial 0xEDB88320). The accumulator
-- stays below 2 ^ 32, so no truncation is needed.
def crc32Round (c : Nat) : Nat :=
  if c % 2 = 1 then (c / 2) ^^^ 0xEDB88320 else c / 2

def crc32Byte (c b : Nat) : Nat :=
  (List.range 8).foldl (fun acc _ => crc32Round acc) (c ^^^ (b % 256))

def crc32 (data : List Byte) : Nat :=
  (data.foldl crc32Byte 0xFFFFFFFF) ^^^ 0xFFFFFFFF

-- The fixed stream header: magic, deflate method, no flags, zero mtime, no
-- extra flags, unknown OS.
def gzipStreamHeader : List Byte := [31, 139, 8, 0, 0, 0, 0, 0, 0, 255]

/-- Modelled from the spec: the deflate payload emitted by the encoder
(compress/gzip, Go standard library, not part of src/). The spec fixes only
the contract - a valid self-contained stream in the deflate-family format
that decompresses to exactly the input - which stored (uncompressed) deflate
blocks realise: each block is a final flag, a little-endian length, its
complement, and the raw bytes. -/
def deflateStored (X : List Byte) : List Byte :=
  if _h : X.length ≤ 65535 then
    1 :: (le16 X.length ++ le16 (65535 - X.length) ++ X)
  else
    0 :: (le16 65535 ++ le16 0 ++ (X.take 65535 ++ deflateStored (X.drop 65535)))
termination_by X.length
decreasing_by simp only [List.length_drop]; omega

-- Parses stored deflate blocks; the fuel bounds the number of blocks. The
-- result is the decoded bytes and the unconsumed remainder of the input.
def inflateBlocks : Nat → List Byte → Option (List Byte × List Byte)
  | 0, _ => none
  | fuel + 1, f :: l0 :: l1 :: n0 :: n1 :: rest =>
    let len := l0 + 256 * l1
    if (n0 + 256 * n1 = 65535 - len ∧ len ≤ 65535) ∧ len ≤ rest.length then
      if f = 1 then some (rest.take len, rest.drop len)
      else if f = 0 then
        match inflateBlocks fuel (rest.drop len) with
        | some (dat, rem) => some (rest.take len ++ dat, rem)
        | none => none
      else none
    else none
  | _ + 1, _ => none

def gzipTrailer (X : List Byte) : List Byte :=
  le32 (crc32 X) ++ le32 (X.length % 2 ^ 32)

/-- Modelled from the spec: the full wire format of one compressed response
body - stream header, deflate payload, then the CRC and length trailer that
terminates the stream at close. -/
def gzipCompress (X : List Byte) : List Byte :=
  gzipStreamHeader ++ deflateStored X ++ gzipTrailer X

/-- Modelled from the spec: the inverse direction of the round-trip law -
parse the header, inflate the blocks, check the trailer. -/
def gzipDecompress (s : List Byte) : Option (List Byte) :=
  if listStartsWith s gzipStreamHeader then
    match inflateBlocks s.length (s.drop 10) with
    | some (dat, rem) => if rem = gzipTrailer dat then some dat else none
    | none => none
  else none

-- The response headers the handler reads or mutates. Go http.Header access
-- returns "" for an absent key, which the empty-string defaults model
-- exactly; Del restores "".
structure Headers where
  contentType : String := ""
  contentEncoding : String := ""
  contentLength : String := ""
  vary : List String := []
  deriving DecidableEq

-- Observable events on the real response channel, in order of occurrence.
inductive Ev where
  | setContentType (v : String)
  | setContentEncoding (v : String)
  | setContentLength (v : String)
  | delContentLength
  | commit (status : Nat)
  | chunk (bs : List Byte)
  deriving DecidableEq

-- Header-mutation events.
def Ev.isMut : Ev → Bool
  | .setContentType _ | .setContentEncoding _ | .setContentLength _ | .delContentLength => true
  | _ => false

-- Body-byte events.
def Ev.isChunk : Ev → Bool
  | .chunk _ => true
  | _ => false

/-- Modelled from the spec: the real response channel (net/http, not part of
src/). Headers are mutable; the status is committed at most once - by an
explicit status call, or implicitly with the default OK (200) status when
body bytes are first written, the spec's "default OK status if none was
cached" at the header-commit boundary. -/
structure RealWriter where
  headers : Headers := {}
  committed : Option Nat := none
  body : List Byte := []
  log : List Ev := []
  deriving DecidableEq

def RealWriter.writeHeader (w : RealWriter) (status : Nat) : RealWriter :=
  match w.committed with
  | some _ => w
  | none => { w with committed := some status, log := w.log ++ [Ev.commit status] }

def RealWriter.write (w : RealWriter) (b : List Byte) : RealWriter :=
  let w1 := match w.committed with
    | some _ => w
    | none => w.writeHeader 200
  { w1 with body := w1.body ++ b, log := w1.log ++ [Ev.chunk b] }

def RealWriter.setContentType (w : RealWriter) (v : String) : RealWriter :=
  { w with headers := { w.headers with contentType := v },
           log := w.log ++ [Ev.setContentType v] }

def RealWriter.setContentEncoding (w : RealWriter) (v : String) : RealWriter :=
  { w with headers := { w.headers with contentEncoding := v },
           log := w.log ++ [Ev.setContentEncoding v] }

def RealWriter.setContentLength (w : RealWriter) (v : String) : RealWriter :=
  { w with headers := { w.headers with contentLength := v },
           log := w.log ++ [Ev.setContentLength v] }

def RealWriter.delContentLength (w : RealWriter) : RealWriter :=
  { w with headers := { w.headers with contentLength := "" },
           log := w.log ++ [Ev.delContentLength] }

def RealWriter.addVary (w : RealWriter) (v : String) : RealWriter :=
  { w with headers := { w.headers with vary := w.headers.vary ++ [v] } }

/-- Modelled from the spec: the borrowed streaming encoder (compress/gzip,
Go standard library, not part of src/). It emits its stream header on the
first write after a reset, accumulates the bytes it is given, and emits the
deflate payload and trailer when closed; Reset rebinds it to the response
and clears this state. -/
structure GzipWriter where
  buf : List Byte := []
  wroteStreamHeader : Bool := false
  deriving DecidableEq

-- compressWriter (handler.go:87-93): the interceptor around the real
-- channel, with the two sentinel booleans and the cached status.
structure CompressWriter where
  rw : RealWriter
  gz : GzipWriter := {}
  gzipDetect : Bool := false
  gzipUse : Bool := false
  status : Nat := 0
  deriving DecidableEq

-- handler.go:97-99: WriteHeader only caches the status code.
def CompressWriter.WriteHeader (cw : CompressWriter) (status : Nat) : CompressWriter :=
  { cw with status := status }

-- handler.go:102-106: commit the cached status when one exists.
def CompressWriter.writePostponedHeader (cw : CompressWriter) : CompressWriter :=
  if 0 < cw.status then { cw with rw := cw.rw.writeHeader cw.status } else cw

-- gzipWriter.Write on the interceptor state: stream header on first use,
-- then accumulate.
def CompressWriter.gzipWrite (cw : CompressWriter) (b : List Byte) : CompressWriter :=
  let cw1 :=
    if cw.gz.wroteStreamHeader then cw
    else { cw with rw := cw.rw.write gzipStreamHeader,
                   gz := { cw.gz with wroteStreamHeader := true } }
  { cw1 with gz := { cw1.gz with buf := cw1.gz.buf ++ b } }

-- gzipWriter.Close on the interceptor state: emit the remaining payload and
-- the stream trailer.
def CompressWriter.gzipClose (cw : CompressWriter) : CompressWriter :=
  if cw.gz.wroteStreamHeader then
    { cw with rw := cw.rw.write (deflateStored cw.gz.buf ++ gzipTrailer cw.gz.buf) }
  else
    { cw with rw := cw.rw.write (gzipCompress cw.gz.buf),
              gz := { cw.gz with wroteStreamHeader := true } }

-- handler.go:140-143, the lines run when the decision is to compress: drop
-- the stale Content-Length, announce the encoding, rebind the pooled
-- encoder, set the sentinel.
def CompressWriter.enableGzip (cw : CompressWriter) : CompressWriter :=
  { cw with rw := (cw.rw.delContentLength).setContentEncoding "gzip",
            gz := {}, gzipUse := true }

-- handler.go:111-148: the one-time detection block of Write, with the goto
-- NoGzipUse joins flattened into the if structure. Note two quirks taken
-- verbatim from the source: an explicitly positive Content-Length skips the
-- minimum-size comparison entirely, and the denylist lookup happens only in
-- the sniffing branch, never for an explicitly set Content-Type.
def CompressWriter.runDetection (cw : CompressWriter) (b : List Byte) : CompressWriter :=
  let cw1 :=
    if cw.rw.headers.contentEncoding ≠ "" then cw
    else if goAtoi cw.rw.headers.contentLength ≤ 0 ∧ b.length < gzippableMinSize then cw
    else if cw.rw.headers.contentType = "" then
      let ct := detectContentType b
      let cw2 := { cw with rw := cw.rw.setContentType ct }
      if gzipKey ct ∈ notGzippableTypes then cw2 else cw2.enableGzip
    else cw.enableGzip
  { cw1.writePostponedHeader with gzipDetect := true }

-- handler.go:110-154.
def CompressWriter.Write (cw : CompressWriter) (b : List Byte) : CompressWriter :=
  let cw1 := if cw.gzipDetect then cw else cw.runDetection b
  if cw1.gzipUse then cw1.gzipWrite b else { cw1 with rw := cw1.rw.write b }

-- handler.go:157-165.
def CompressWriter.close (cw : CompressWriter) : CompressWriter :=
  let cw1 := if cw.gzipDetect then cw else cw.writePostponedHeader
  if cw1.gzipUse then cw1.gzipClose else cw1

-- The two request signals the entry point reads (handler.go:71).
structure Request where
  acceptEncoding : String := ""
  secWebSocketKey : String := ""

-- One application action against the response object it was handed.
inductive AppOp where
  | setContentType (v : String)
  | setContentEncoding (v : String)
  | setContentLength (v : String)
  | writeHeader (status : Nat)
  | write (b : List Byte)

-- The body bytes an application program writes, in order.
def appWrites : List AppOp → List Byte
  | [] => []
  | AppOp.write b :: rest => b ++ appWrites rest
  | _ :: rest => appWrites rest

-- The wrapped application run against the real channel (the skip path of
-- ServeHTTP hands the original writer to Next unchanged).
def runAppDirect (w : RealWriter) : List AppOp → RealWriter
  | [] => w
  | op :: rest =>
    let w1 := match op with
      | .setContentType v => w.setContentType v
      | .setContentEncoding v => w.setContentEncoding v
      | .setContentLength v => w.setContentLength v
      | .writeHeader c => w.writeHeader c
      | .write b => w.write b
    runAppDirect w1 rest

-- The wrapped application run against the interceptor; header access reaches
-- the embedded response writer directly, exactly as the promoted
-- http.ResponseWriter methods do in Go.
def runAppCW (cw : CompressWriter) : List AppOp → CompressWriter
  | [] => cw
  | op :: rest =>
    let cw1 := match op with
      | .setContentType v => { cw with rw := cw.rw.setContentType v }
      | .setContentEncoding v => { cw with rw := cw.rw.setContentEncoding v }
      | .setContentLength v => { cw with rw := cw.rw.setContentLength v }
      | .writeHeader c => cw.WriteHeader c
      | .write b => cw.Write b
    runAppCW cw1 rest

-- handler.go:68-84: add Vary, skip interception for clients that do not
-- accept gzip or for WebSocket upgrades, otherwise intercept and close on
-- the way out (the deferred close runs before the pool return).
def ServeHTTP (app : List AppOp) (w : RealWriter) (r : Request) : RealWriter :=
  let w1 := w.addVary "Accept-Encoding"
  if goContains r.acceptEncoding "gzip" = false ∨ r.secWebSocketKey ≠ "" then
    runAppDirect w1 app
  else
    ((runAppCW { rw := w1 } app).close).rw

-- A list starts with itself, whatever follows.
theorem listStartsWith_append {α : Type} [DecidableEq α] (p t : List α) :
    listStartsWith (p ++ t) p = true := by
  induction p with
  | nil => simp [listStartsWith]
  | cons a p ih => simp [listStartsWith, ih]

theorem deflateStored_len_aux :
    ∀ n X, List.length X ≤ n → X.length + 5 ≤ (deflateStored X).length := by
  intro n
  induction n with
  | zero =>
    intro X hX
    have hx : X = [] := List.length_eq_zero.mp (Nat.le_zero.mp hX)
    subst hx
    rw [deflateStored]
    simp [le16]
  | succ n ih =>
    intro X hX
    rw [deflateStored]
    split
    · simp [le16]
    · rename_i hgt
      have hrec := ih (X.drop 65535) (by simp only [List.length_drop]; omega)
      simp only [le16, List.length_cons, List.length_append, List.length_take,
        List.length_drop] at hrec ⊢
      omega

theorem deflateStored_len (X : List Byte) : X.length + 5 ≤ (deflateStored X).length :=
  deflateStored_len_aux X.length X le_rfl

-- Inflating what was deflated returns the data and leaves the rest.
theorem inflate_deflate :
    ∀ fuel X rest, X.length < fuel →
      inflateBlocks fuel (deflateStored X ++ rest) = some (X, rest) := by
  intro fuel
  induction fuel with
  | zero => intro X rest h; exact absurd h (Nat.not_lt_zero _)
  | succ fuel ih =>
    intro X rest h
    rw [deflateStored]
    split
    · rename_i hle
      have e1 : X.length % 256 + 256 * (X.length / 256) = X.length :=
        Nat.mod_add_div _ _
      have e2 : (65535 - X.length) % 256 + 256 * ((65535 - X.length) / 256)
          = 65535 - X.length := Nat.mod_add_div _ _
      simp only [le16, List.cons_append, List.append_assoc, List.nil_append,
        inflateBlocks, e1, e2]
      have hlen : X.length ≤ (X ++ rest).length := by
        simp [List.length_append]
      simp [hle, hlen, List.take_left, List.drop_left]
    · rename_i hgt
      have hxlen : 65535 ≤ X.length := by omega
      have htk : (X.take 65535).length = 65535 := by
        simp [List.length_take, min_eq_left hxlen]
      have htl : ((X.take 65535) ++ (deflateStored (X.drop 65535) ++ rest)).take 65535
          = X.take 65535 := List.take_left' htk
      have hdl : ((X.take 65535) ++ (deflateStored (X.drop 65535) ++ rest)).drop 65535
          = deflateStored (X.drop 65535) ++ rest := List.drop_left' htk
      have hrec := ih (X.drop 65535) rest (by simp only [List.length_drop]; omega)
      have hlen : (65535 : Nat)
          ≤ ((X.take 65535) ++ (deflateStored (X.drop 65535) ++ rest)).length := by
        simp only [List.length_append, htk]
        omega
      simp only [le16, List.cons_append, List.append_assoc, inflateBlocks]
      norm_num
      simp only [min_eq_left hxlen, htl, hdl, hrec]
      simp [List.take_append_drop]

-- The round-trip law for the modelled codec.
theorem gzip_roundtrip (X : List Byte) : gzipDecompress (gzipCompress X) = some X := by
  have hsw : listStartsWith (gzipCompress X) gzipStreamHeader = true := by
    rw [gzipCompress, List.append_assoc]
    exact listStartsWith_append _ _
  have h10 : gzipStreamHeader.length = 10 := rfl
  have hdrop : (gzipCompress X).drop 10 = deflateStored X ++ gzipTrailer X := by
    rw [gzipCompress, List.append_assoc, ← h10, List.drop_left]
  have hfuel : X.length < (gzipCompress X).length := by
    have hd := deflateStored_len X
    simp only [gzipCompress, List.length_append, h10]
    omega
  rw [gzipDecompress]
  simp only [hsw, if_true]
  rw [hdrop, inflate_deflate _ X (gzipTrailer X) hfuel]
  simp

-- Basic facts about the real channel operations.

@[simp]
theorem RealWriter.writeHeader_headers (w : RealWriter) (c : Nat) :
    (w.writeHeader c).headers = w.headers := by
  cases h : w.committed <;> simp [RealWriter.writeHeader, h]

@[simp]
theorem RealWriter.writeHeader_body (w : RealWriter) (c : Nat) :
    (w.writeHeader c).body = w.body := by
  cases h : w.committed <;> simp [RealWriter.writeHeader, h]

@[simp]
theorem RealWriter.write_headers (w : RealWriter) (b : List Byte) :
    (w.write b).headers = w.headers := by
  cases h : w.committed <;> simp [RealWriter.write, RealWriter.writeHeader, h]

@[simp]
theorem RealWriter.write_body (w : RealWriter) (b : List Byte) :
    (w.write b).body = w.body ++ b := by
  cases h : w.committed <;> simp [RealWriter.write, RealWriter.writeHeader, h]

@[simp]
theorem RealWriter.write_committed_some (w : RealWriter) (b : List Byte) (c : Nat)
    (h : w.committed = some c) : (w.write b).committed = some c := by
  simp [RealWriter.write, h]

@[simp]
theorem RealWriter.write_committed_none (w : RealWriter) (b : List Byte)
    (h : w.committed = none) : (w.write b).committed = some 200 := by
  simp [RealWriter.write, RealWriter.writeHeader, h]

-- gzipWrite touches only the embedded writer's body, log and committed
-- status, and the encoder buffer.

@[simp]
theorem CompressWriter.gzipWrite_gzipDetect (cw : CompressWriter) (b : List Byte) :
    (cw.gzipWrite b).gzipDetect = cw.gzipDetect := by
  by_cases h : cw.gz.wroteStreamHeader <;> simp [CompressWriter.gzipWrite, h]

@[simp]
theorem CompressWriter.gzipWrite_gzipUse (cw : CompressWriter) (b : List Byte) :
    (cw.gzipWrite b).gzipUse = cw.gzipUse := by
  by_cases h : cw.gz.wroteStreamHeader <;> simp [CompressWriter.gzipWrite, h]

@[simp]
theorem CompressWriter.gzipWrite_status (cw : CompressWriter) (b : List Byte) :
    (cw.gzipWrite b).status = cw.status := by
  by_cases h : cw.gz.wroteStreamHeader <;> simp [CompressWriter.gzipWrite, h]

@[simp]
theorem CompressWriter.gzipWrite_headers (cw : CompressWriter) (b : List Byte) :
    (cw.gzipWrite b).rw.headers = cw.rw.headers := by
  by_cases h : cw.gz.wroteStreamHeader <;> simp [CompressWriter.gzipWrite, h]

theorem CompressWriter.gzipWrite_buf (cw : CompressWriter) (b : List Byte) :
    (cw.gzipWrite b).gz.buf = cw.gz.buf ++ b := by
  by_cases h : cw.gz.wroteStreamHeader <;> simp [CompressWriter.gzipWrite, h]

theorem CompressWriter.gzipWrite_wrote (cw : CompressWriter) (b : List Byte) :
    (cw.gzipWrite b).gz.wroteStreamHeader = true := by
  by_cases h : cw.gz.wroteStreamHeader <;> simp [CompressWriter.gzipWrite, h]

theorem CompressWriter.gzipWrite_rw (cw : CompressWriter) (b : List Byte) :
    (cw.gzipWrite b).rw
      = (if cw.gz.wroteStreamHeader then cw.rw else cw.rw.write gzipStreamHeader) := by
  by_cases h : cw.gz.wroteStreamHeader <;> simp [CompressWriter.gzipWrite, h]

-- Neither path of Write, nor close, ever touches the Vary header.

theorem CompressWriter.Write_vary (cw : CompressWriter) (b : List Byte) :
    (cw.Write b).rw.headers.vary = cw.rw.headers.vary := by
  by_cases hd : cw.gzipDetect <;>
    by_cases hu : cw.gzipUse <;>
    by_cases hce : cw.rw.headers.contentEncoding = "" <;>
    by_cases hlen : goAtoi cw.rw.headers.contentLength ≤ 0 ∧ b.length < gzippableMinSize <;>
    by_cases hct : cw.rw.headers.contentType = "" <;>
    by_cases hdeny : gzipKey (detectContentType b) ∈ notGzippableTypes <;>
    by_cases hst : 0 < cw.status <;>
    simp [CompressWriter.Write, CompressWriter.runDetection, CompressWriter.enableGzip,
      CompressWriter.writePostponedHeader, RealWriter.setContentType,
      RealWriter.setContentEncoding, RealWriter.delContentLength,
      hd, hu, hce, hlen, hct, hdeny, hst]

theorem CompressWriter.close_vary (cw : CompressWriter) :
    (cw.close).rw.headers.vary = cw.rw.headers.vary := by
  by_cases hd : cw.gzipDetect <;>
    by_cases hu : cw.gzipUse <;>
    by_cases hst : 0 < cw.status <;>
    by_cases hw : cw.gz.wroteStreamHeader <;>
    simp [CompressWriter.close, CompressWriter.writePostponedHeader,
      CompressWriter.gzipClose, hd, hu, hst, hw]

theorem runAppCW_vary (app : List AppOp) : ∀ cw : CompressWriter,
    (runAppCW cw app).rw.headers.vary = cw.rw.headers.vary := by
  induction app with
  | nil => intro cw; rfl
  | cons op rest ih =>
    intro cw
    cases op <;>
      simp [runAppCW, ih, CompressWriter.WriteHeader, CompressWriter.Write_vary,
        RealWriter.setContentType, RealWriter.setContentEncoding,
        RealWriter.setContentLength]

theorem runAppDirect_vary (app : List AppOp) : ∀ w : RealWriter,
    (runAppDirect w app).headers.vary = w.headers.vary := by
  induction app with
  | nil => intro w; rfl
  | cons op rest ih =>
    intro w
    cases op <;>
      simp [runAppDirect, ih, RealWriter.setContentType, RealWriter.setContentEncoding,
        RealWriter.setContentLength]

-- On the skip path the application writes land on the channel unchanged.
theorem runAppDirect_body (app : List AppOp) : ∀ w : RealWriter,
    (runAppDirect w app).body = w.body ++ appWrites app := by
  induction app with
  | nil => intro w; simp [runAppDirect, appWrites]
  | cons op rest ih =>
    intro w
    cases op <;>
      simp [runAppDirect, ih, appWrites, RealWriter.setContentType,
        RealWriter.setContentEncoding, RealWriter.setContentLength]

-- Concatenation of the chunks an application hands to write.
def concatBytes : List (List Byte) → List Byte
  | [] => []
  | b :: t => b ++ concatBytes t

-- Folding writes over an already-decided compressing interceptor: the bytes
-- accumulate in the encoder, and the only channel traffic is the stream
-- header on the first chunk.
theorem foldWrite_gz (chunks : List (List Byte)) : ∀ cw : CompressWriter,
    cw.gzipDetect = true → cw.gzipUse = true →
    ((chunks.foldl CompressWriter.Write cw).gzipDetect = true ∧
     (chunks.foldl CompressWriter.Write cw).gzipUse = true ∧
     (chunks.foldl CompressWriter.Write cw).gz.buf = cw.gz.buf ++ concatBytes chunks ∧
     (chunks.foldl CompressWriter.Write cw).gz.wroteStreamHeader
        = (cw.gz.wroteStreamHeader || !chunks.isEmpty) ∧
     (chunks.foldl CompressWriter.Write cw).rw
        = (if cw.gz.wroteStreamHeader ∨ chunks = [] then cw.rw
           else cw.rw.write gzipStreamHeader)) := by
  induction chunks with
  | nil =>
    intro cw hd hu
    simp [concatBytes, hd, hu]
  | cons c t ih =>
    intro cw hd hu
    have hwr : cw.Write c = cw.gzipWrite c := by
      simp [CompressWriter.Write, hd, hu]
    have hd1 : (cw.gzipWrite c).gzipDetect = true := by simp [hd]
    have hu1 : (cw.gzipWrite c).gzipUse = true := by simp [hu]
    obtain ⟨i1, i2, i3, i4, i5⟩ := ih (cw.gzipWrite c) hd1 hu1
    have hfold : (c :: t).foldl CompressWriter.Write cw
        = t.foldl CompressWriter.Write (cw.Write c) := rfl
    rw [hfold, hwr]
    refine ⟨i1, i2, ?_, ?_, ?_⟩
    · rw [i3, CompressWriter.gzipWrite_buf]
      simp [concatBytes, List.append_assoc]
    · rw [i4, CompressWriter.gzipWrite_wrote]
      simp
    · rw [i5, CompressWriter.gzipWrite_wrote, CompressWriter.gzipWrite_rw]
      by_cases hwh : cw.gz.wroteStreamHeader <;> simp [hwh]

/-- C1: the claim says a response whose effective content type is in the
denylist never gets the compression header, "in particular a 2000-byte body
with Content-Type image/jpeg explicitly set". The code violates this: the
denylist lookup (handler.go:130-137) sits inside the sniffing branch, which
runs only when no Content-Type was set, so an explicit "image/jpeg" skips it
and the 2000-byte body is gzipped. This theorem evaluates the embedded Write
at exactly that failing input. -/
theorem c1_explicit_denylist_type_still_gzipped :
    (CompressWriter.Write { rw := { headers := { contentType := "image/jpeg" } } }
        (List.replicate 2000 0)).rw.headers.contentEncoding = "gzip" ∧
    (CompressWriter.Write { rw := { headers := { contentType := "image/jpeg" } } }
        (List.replicate 2000 0)).gzipUse = true := by
  have hatoi : goAtoi "" = 0 := rfl
  have hct : ¬(("image/jpeg" : String) = "") := by decide
  constructor <;>
    simp [CompressWriter.Write, CompressWriter.runDetection, CompressWriter.enableGzip,
      CompressWriter.writePostponedHeader, CompressWriter.gzipWrite,
      RealWriter.setContentEncoding, RealWriter.delContentLength,
      RealWriter.write, RealWriter.writeHeader, gzippableMinSize, hatoi, hct]

/-- C2: the claim says a response whose effective content length (explicit
positive Content-Length if present, else the first chunk's length) is below
1400 bytes never gets the compression header. The code violates this: a
positive Content-Length makes the guard `cl <= 0` at handler.go:118 false,
which skips the minimum-size comparison entirely, so an explicit
"Content-Length: 100" response is gzipped. This theorem evaluates the
embedded Write at exactly that failing input. -/
theorem c2_small_explicit_length_still_gzipped :
    (CompressWriter.Write
        { rw := { headers := { contentType := "text/html", contentLength := "100" } } }
        (List.replicate 100 97)).rw.headers.contentEncoding = "gzip" ∧
    (CompressWriter.Write
        { rw := { headers := { contentType := "text/html", contentLength := "100" } } }
        (List.replicate 100 97)).gzipUse = true := by
  have hatoi : ¬(goAtoi "100" ≤ 0) := by decide
  have hct : ¬(("text/html" : String) = "") := by decide
  constructor <;>
    simp [CompressWriter.Write, CompressWriter.runDetection, CompressWriter.enableGzip,
      CompressWriter.writePostponedHeader, CompressWriter.gzipWrite,
      RealWriter.setContentEncoding, RealWriter.delContentLength,
      RealWriter.write, RealWriter.writeHeader, hatoi, hct]

/-- C3: once the first write has set the decided flag, every later write is
pure forwarding along the path selected then - the encoder when `gzipUse`
was set, the real channel otherwise - and the decision sequence is never
re-run: the flag stays set, the selected path, the cached status and all
headers are untouched. -/
theorem c3_decision_irreversible (cw : CompressWriter) (b : List Byte)
    (h : cw.gzipDetect = true) :
    cw.Write b = (if cw.gzipUse then cw.gzipWrite b else { cw with rw := cw.rw.write b }) ∧
    (cw.Write b).gzipDetect = true ∧
    (cw.Write b).gzipUse = cw.gzipUse ∧
    (cw.Write b).status = cw.status ∧
    (cw.Write b).rw.headers = cw.rw.headers := by
  have he : cw.Write b
      = if cw.gzipUse then cw.gzipWrite b else { cw with rw := cw.rw.write b } := by
    simp [CompressWriter.Write, h]
  refine ⟨he, ?_, ?_, ?_, ?_⟩ <;> rw [he] <;>
    by_cases hu : cw.gzipUse <;> simp [hu, h]

/-- Witness for C3 at a concrete decided interceptor. -/
theorem c3_decision_irreversible_witness :
    ({ rw := {}, gzipDetect := true } : CompressWriter).gzipDetect = true ∧
    (({ rw := {}, gzipDetect := true } : CompressWriter).Write [7]
        = (if ({ rw := {}, gzipDetect := true } : CompressWriter).gzipUse
           then ({ rw := {}, gzipDetect := true } : CompressWriter).gzipWrite [7]
           else { ({ rw := {}, gzipDetect := true } : CompressWriter) with
                    rw := ({ rw := {}, gzipDetect := true } : CompressWriter).rw.write [7] }) ∧
      (({ rw := {}, gzipDetect := true } : CompressWriter).Write [7]).gzipDetect = true ∧
      (({ rw := {}, gzipDetect := true } : CompressWriter).Write [7]).gzipUse
        = ({ rw := {}, gzipDetect := true } : CompressWriter).gzipUse ∧
      (({ rw := {}, gzipDetect := true } : CompressWriter).Write [7]).status
        = ({ rw := {}, gzipDetect := true } : CompressWriter).status ∧
      (({ rw := {}, gzipDetect := true } : CompressWriter).Write [7]).rw.headers
        = ({ rw := {}, gzipDetect := true } : CompressWriter).rw.headers) :=
  ⟨rfl, c3_decision_irreversible { rw := {}, gzipDetect := true } [7] rfl⟩

/-- C5: when the application has set any non-empty Content-Encoding before
the first write, the decision resolves to pass-through: the header value is
preserved, the encoder is never enabled, the body bytes go to the real
channel unchanged and nothing reaches the encoder. -/
theorem c5_app_encoding_preserved (cw : CompressWriter) (b : List Byte)
    (h1 : cw.gzipDetect = false) (h2 : cw.gzipUse = false)
    (h : cw.rw.headers.contentEncoding ≠ "") :
    (cw.Write b).rw.headers.contentEncoding = cw.rw.headers.contentEncoding ∧
    (cw.Write b).gzipUse = false ∧
    (cw.Write b).rw.body = cw.rw.body ++ b ∧
    (cw.Write b).gz = cw.gz := by
  by_cases hst : 0 < cw.status <;>
    simp [CompressWriter.Write, CompressWriter.runDetection,
      CompressWriter.writePostponedHeader, h1, h2, h, hst]

/-- Witness for C5: the application set "br" itself; a large write stays
uncompressed and the header survives. -/
theorem c5_app_encoding_preserved_witness :
    ({ rw := { headers := { contentEncoding := "br" } } } : CompressWriter).gzipDetect = false ∧
    ({ rw := { headers := { contentEncoding := "br" } } } : CompressWriter).rw.headers.contentEncoding ≠ "" ∧
    ((({ rw := { headers := { contentEncoding := "br" } } } : CompressWriter).Write
          (List.replicate 1500 0)).rw.headers.contentEncoding
        = ({ rw := { headers := { contentEncoding := "br" } } } : CompressWriter).rw.headers.contentEncoding ∧
      (({ rw := { headers := { contentEncoding := "br" } } } : CompressWriter).Write
          (List.replicate 1500 0)).gzipUse = false ∧
      (({ rw := { headers := { contentEncoding := "br" } } } : CompressWriter).Write
          (List.replicate 1500 0)).rw.body
        = ({ rw := { headers := { contentEncoding := "br" } } } : CompressWriter).rw.body
            ++ List.replicate 1500 0 ∧
      (({ rw := { headers := { contentEncoding := "br" } } } : CompressWriter).Write
          (List.replicate 1500 0)).gz
        = ({ rw := { headers := { contentEncoding := "br" } } } : CompressWriter).gz) :=
  ⟨rfl, by decide,
    c5_app_encoding_preserved { rw := { headers := { contentEncoding := "br" } } }
      (List.replicate 1500 0) rfl rfl (by decide)⟩

/-- C8 counterexample: the claim says a status call made after the decision
"is forwarded immediately to the real channel". It is not: after a first
write has run the decision (the flag below is set), WriteHeader 418 leaves
the real channel completely unchanged - it still holds the implicit 200 and
gains no event - because handler.go:97-99 only ever caches the code. -/
theorem c8_after_decision_not_forwarded :
    ((CompressWriter.Write { rw := {} } [104]).WriteHeader 418).rw
        = (CompressWriter.Write { rw := {} } [104]).rw ∧
    (CompressWriter.Write { rw := {} } [104]).gzipDetect = true ∧
    ((CompressWriter.Write { rw := {} } [104]).WriteHeader 418).rw.committed = some 200 :=
  ⟨rfl, rfl, rfl⟩

/-- C8 as amended: the status-setting operation only ever caches the code
and never writes anything to the real channel, before or after the
decision; a call made after the postponed header has been written is simply
ignored (the cached value is never read again). -/
theorem c8_writeheader_only_caches (cw : CompressWriter) (code : Nat) :
    (cw.WriteHeader code).rw = cw.rw ∧
    (cw.WriteHeader code).status = code ∧
    (cw.WriteHeader code).gzipDetect = cw.gzipDetect ∧
    (cw.WriteHeader code).gzipUse = cw.gzipUse ∧
    (cw.WriteHeader code).gz = cw.gz :=
  ⟨rfl, rfl, rfl, rfl, rfl⟩

/-- C9: close on a still-fresh interceptor (no write ever happened) commits
the cached status when one was set and commits nothing otherwise; either
way no body byte and no header change reaches the channel, and close is a
total function - a zero-write response ends without error. -/
theorem c9_close_fresh_commits_cached (cw : CompressWriter)
    (h1 : cw.gzipDetect = false) (h2 : cw.gzipUse = false)
    (h3 : cw.rw.committed = none) :
    (cw.close).rw.committed = (if 0 < cw.status then some cw.status else none) ∧
    (cw.close).rw.body = cw.rw.body ∧
    (cw.close).rw.headers = cw.rw.headers := by
  by_cases hst : 0 < cw.status <;>
    simp [CompressWriter.close, CompressWriter.writePostponedHeader,
      RealWriter.writeHeader, h1, h2, h3, hst]

/-- Witness for C9: a response that cached 404 and wrote nothing still
delivers 404 at close. -/
theorem c9_close_fresh_commits_cached_witness :
    ({ rw := {}, status := 404 } : CompressWriter).gzipDetect = false ∧
    ({ rw := {}, status := 404 } : CompressWriter).rw.committed = none ∧
    ((({ rw := {}, status := 404 } : CompressWriter).close).rw.committed
        = (if 0 < ({ rw := {}, status := 404 } : CompressWriter).status
           then some ({ rw := {}, status := 404 } : CompressWriter).status else none) ∧
      (({ rw := {}, status := 404 } : CompressWriter).close).rw.body
        = ({ rw := {}, status := 404 } : CompressWriter).rw.body ∧
      (({ rw := {}, status := 404 } : CompressWriter).close).rw.headers
        = ({ rw := {}, status := 404 } : CompressWriter).rw.headers) :=
  ⟨rfl, rfl, c9_close_fresh_commits_cached { rw := {}, status := 404 } rfl rfl rfl⟩

/-- C6: the entry point always appends the "Accept-Encoding" signal to Vary
first; and when the request does not advertise gzip (substring check) or the
WebSocket-upgrade marker header is non-empty, no interceptor is built - the
run is exactly the application run against the original channel, with the
Vary addition as the only change, so the response body is byte-identical to
what the application wrote. -/
theorem c6_skip_path_byte_identical (app : List AppOp) (w : RealWriter) (r : Request) :
    (ServeHTTP app w r).headers.vary = w.headers.vary ++ ["Accept-Encoding"] ∧
    ((goContains r.acceptEncoding "gzip" = false ∨ r.secWebSocketKey ≠ "") →
      ServeHTTP app w r = runAppDirect (w.addVary "Accept-Encoding") app ∧
      (ServeHTTP app w r).body = w.body ++ appWrites app) := by
  constructor
  · by_cases h : goContains r.acceptEncoding "gzip" = false ∨ r.secWebSocketKey ≠ ""
    · simp only [ServeHTTP, if_pos h]
      rw [runAppDirect_vary]
      simp [RealWriter.addVary]
    · simp only [ServeHTTP, if_neg h]
      rw [CompressWriter.close_vary, runAppCW_vary]
      simp [RealWriter.addVary]
  · intro h
    have he : ServeHTTP app w r = runAppDirect (w.addVary "Accept-Encoding") app := by
      simp only [ServeHTTP, if_pos h]
    refine ⟨he, ?_⟩
    rw [he, runAppDirect_body]
    simp [RealWriter.addVary]

/-- Witness for C6: a client that only accepts "identity" gets the untouched
application bytes. -/
theorem c6_skip_path_byte_identical_witness :
    ((ServeHTTP [AppOp.write [1, 2, 3]] {} { acceptEncoding := "identity" }).headers.vary
        = ({} : RealWriter).headers.vary ++ ["Accept-Encoding"] ∧
      (ServeHTTP [AppOp.write [1, 2, 3]] {} { acceptEncoding := "identity" }
          = runAppDirect (({} : RealWriter).addVary "Accept-Encoding") [AppOp.write [1, 2, 3]] ∧
        (ServeHTTP [AppOp.write [1, 2, 3]] {} { acceptEncoding := "identity" }).body
          = ({} : RealWriter).body ++ appWrites [AppOp.write [1, 2, 3]])) :=
  ⟨(c6_skip_path_byte_identical [AppOp.write [1, 2, 3]] {} { acceptEncoding := "identity" }).1,
    (c6_skip_path_byte_identical [AppOp.write [1, 2, 3]] {} { acceptEncoding := "identity" }).2
      (Or.inl (by decide))⟩

/-- C7: on a response where the compressed path was selected (decided flag
and encoder flag set, encoder freshly reset), folding any sequence of
application writes and then closing emits to the real channel exactly the
compressed stream of the concatenated bytes - stream header, payload,
end-of-stream trailer - and that stream decompresses back to exactly those
bytes, the empty sequence included. -/
theorem c7_compressed_stream_roundtrip (cw : CompressWriter) (chunks : List (List Byte))
    (h1 : cw.gzipDetect = true) (h2 : cw.gzipUse = true) (h3 : cw.gz = {}) :
    ((chunks.foldl CompressWriter.Write cw).close).rw.body
        = cw.rw.body ++ gzipCompress (concatBytes chunks) ∧
    gzipDecompress (gzipCompress (concatBytes chunks)) = some (concatBytes chunks) := by
  refine ⟨?_, gzip_roundtrip _⟩
  obtain ⟨f1, f2, f3, f4, f5⟩ := foldWrite_gz chunks cw h1 h2
  have hbuf3 : (chunks.foldl CompressWriter.Write cw).gz.buf = concatBytes chunks := by
    rw [f3, h3]
    rfl
  have hclose : (chunks.foldl CompressWriter.Write cw).close
      = (chunks.foldl CompressWriter.Write cw).gzipClose := by
    simp [CompressWriter.close, f1, f2]
  cases hc : chunks with
  | nil =>
    subst hc
    rw [hclose]
    show (cw.gzipClose).rw.body = cw.rw.body ++ gzipCompress (concatBytes [])
    simp [CompressWriter.gzipClose, h3, gzipCompress, concatBytes, List.append_assoc]
  | cons c t =>
    have hw : (chunks.foldl CompressWriter.Write cw).gz.wroteStreamHeader = true := by
      rw [f4, h3, hc]
      rfl
    have hrw : (chunks.foldl CompressWriter.Write cw).rw = cw.rw.write gzipStreamHeader := by
      rw [f5, h3, hc]
      simp
    subst hc
    rw [hclose, CompressWriter.gzipClose, if_pos hw, hbuf3, hrw]
    simp [gzipCompress, List.append_assoc]

/-- Witness for C7: two chunks spelling "hi". -/
theorem c7_compressed_stream_roundtrip_witness :
    ({ rw := {}, gzipDetect := true, gzipUse := true } : CompressWriter).gzipDetect = true ∧
    ({ rw := {}, gzipDetect := true, gzipUse := true } : CompressWriter).gz = {} ∧
    (((([[104], [105]] : List (List Byte)).foldl CompressWriter.Write
          { rw := {}, gzipDetect := true, gzipUse := true }).close).rw.body
        = ({ rw := {}, gzipDetect := true, gzipUse := true } : CompressWriter).rw.body
            ++ gzipCompress (concatBytes [[104], [105]]) ∧
      gzipDecompress (gzipCompress (concatBytes [[104], [105]]))
        = some (concatBytes [[104], [105]])) :=
  ⟨rfl, rfl,
    c7_compressed_stream_roundtrip { rw := {}, gzipDetect := true, gzipUse := true }
      [[104], [105]] rfl rfl rfl⟩

/-- C4: on the first content write of a response (decision not yet made,
nothing committed), the status that ends up committed on the real channel is
the cached one, or the default 200 when none was cached; and the events of
that write are exactly some header mutations, then the commit, then only
body-byte events - no byte reaches the channel before the commit, and no
mutation follows it. -/
theorem c4_commit_after_mutations_before_bytes (cw : CompressWriter) (b : List Byte)
    (h1 : cw.gzipDetect = false) (h2 : cw.rw.committed = none)
    (h3 : cw.gzipUse = false) :
    (cw.Write b).rw.committed = some (if 0 < cw.status then cw.status else 200) ∧
    ∃ pre post,
      (cw.Write b).rw.log
          = cw.rw.log
            ++ (pre ++ Ev.commit (if 0 < cw.status then cw.status else 200) :: post) ∧
      pre.all Ev.isMut = true ∧
      post.all Ev.isChunk = true := by
  by_cases hce : cw.rw.headers.contentEncoding = ""
  case neg =>
    by_cases hst : 0 < cw.status <;>
      exact ⟨by
        simp [CompressWriter.Write, CompressWriter.runDetection,
          CompressWriter.writePostponedHeader, RealWriter.write, RealWriter.writeHeader,
          h1, h2, h3, hce, hst],
        [], [Ev.chunk b], by
        simp [CompressWriter.Write, CompressWriter.runDetection,
          CompressWriter.writePostponedHeader, RealWriter.write, RealWriter.writeHeader,
          h1, h2, h3, hce, hst],
        rfl, rfl⟩
  case pos =>
    by_cases hlen : goAtoi cw.rw.headers.contentLength ≤ 0 ∧ b.length < gzippableMinSize
    case pos =>
      by_cases hst : 0 < cw.status <;>
        exact ⟨by
          simp [CompressWriter.Write, CompressWriter.runDetection,
            CompressWriter.writePostponedHeader, RealWriter.write, RealWriter.writeHeader,
            h1, h2, h3, hce, hlen, hst],
          [], [Ev.chunk b], by
          simp [CompressWriter.Write, CompressWriter.runDetection,
            CompressWriter.writePostponedHeader, RealWriter.write, RealWriter.writeHeader,
            h1, h2, h3, hce, hlen, hst],
          rfl, rfl⟩
    case neg =>
      by_cases hct : cw.rw.headers.contentType = ""
      case pos =>
        by_cases hdeny : gzipKey (detectContentType b) ∈ notGzippableTypes
        case pos =>
          by_cases hst : 0 < cw.status <;>
            exact ⟨by
              simp [CompressWriter.Write, CompressWriter.runDetection,
                CompressWriter.writePostponedHeader, RealWriter.write,
                RealWriter.writeHeader, RealWriter.setContentType,
                h1, h2, h3, hce, hlen, hct, hdeny, hst],
              [Ev.setContentType (detectContentType b)], [Ev.chunk b], by
              simp [CompressWriter.Write, CompressWriter.runDetection,
                CompressWriter.writePostponedHeader, RealWriter.write,
                RealWriter.writeHeader, RealWriter.setContentType,
                h1, h2, h3, hce, hlen, hct, hdeny, hst],
              rfl, rfl⟩
        case neg =>
          by_cases hst : 0 < cw.status <;>
            exact ⟨by
              simp [CompressWriter.Write, CompressWriter.runDetection,
                CompressWriter.enableGzip, CompressWriter.writePostponedHeader,
                CompressWriter.gzipWrite, RealWriter.write, RealWriter.writeHeader,
                RealWriter.setContentType, RealWriter.setContentEncoding,
                RealWriter.delContentLength,
                h1, h2, h3, hce, hlen, hct, hdeny, hst],
              [Ev.setContentType (detectContentType b), Ev.delContentLength,
                Ev.setContentEncoding "gzip"], [Ev.chunk gzipStreamHeader], by
              simp [CompressWriter.Write, CompressWriter.runDetection,
                CompressWriter.enableGzip, CompressWriter.writePostponedHeader,
                CompressWriter.gzipWrite, RealWriter.write, RealWriter.writeHeader,
                RealWriter.setContentType, RealWriter.setContentEncoding,
                RealWriter.delContentLength,
                h1, h2, h3, hce, hlen, hct, hdeny, hst],
              rfl, rfl⟩
      case neg =>
        by_cases hst : 0 < cw.status <;>
          exact ⟨by
            simp [CompressWriter.Write, CompressWriter.runDetection,
              CompressWriter.enableGzip, CompressWriter.writePostponedHeader,
              CompressWriter.gzipWrite, RealWriter.write, RealWriter.writeHeader,
              RealWriter.setContentEncoding, RealWriter.delContentLength,
              h1, h2, h3, hce, hlen, hct, hst],
            [Ev.delContentLength, Ev.setContentEncoding "gzip"],
            [Ev.chunk gzipStreamHeader], by
            simp [CompressWriter.Write, CompressWriter.runDetection,
              CompressWriter.enableGzip, CompressWriter.writePostponedHeader,
              CompressWriter.gzipWrite, RealWriter.write, RealWriter.writeHeader,
              RealWriter.setContentEncoding, RealWriter.delContentLength,
              h1, h2, h3, hce, hlen, hct, hst],
            rfl, rfl⟩

/-- Witness for C4: a fresh interceptor with a cached 418 and a small first
chunk. -/
theorem c4_commit_after_mutations_before_bytes_witness :
    ({ rw := {}, status := 418 } : CompressWriter).gzipDetect = false ∧
    ({ rw := {}, status := 418 } : CompressWriter).rw.committed = none ∧
    ((({ rw := {}, status := 418 } : CompressWriter).Write [104]).rw.committed
        = some (if 0 < ({ rw := {}, status := 418 } : CompressWriter).status
                then ({ rw := {}, status := 418 } : CompressWriter).status else 200) ∧
      ∃ pre post,
        (({ rw := {}, status := 418 } : CompressWriter).Write [104]).rw.log
            = ({ rw := {}, status := 418 } : CompressWriter).rw.log
              ++ (pre ++ Ev.commit
                    (if 0 < ({ rw := {}, status := 418 } : CompressWriter).status
                     then ({ rw := {}, status := 418 } : CompressWriter).status else 200)
                  :: post) ∧
        pre.all Ev.isMut = true ∧
        post.all Ev.isChunk = true) :=
  ⟨rfl, rfl,
    c4_commit_after_mutations_before_bytes { rw := {}, status := 418 } [104] rfl rfl rfl⟩

-- Replacing the Content-Length header value, used to state that an invalid
-- value behaves like an absent one.
def CompressWriter.withCL (cw : CompressWriter) (v : String) : CompressWriter :=
  { cw with rw := { cw.rw with headers := { cw.rw.headers with contentLength := v } } }

/-- C10: a Content-Length value that is absent, non-numeric or not a
positive integer (exactly the values the discarded Atoi error leaves at or
below zero) makes the first write behave as if no Content-Length were set at
all - the write never fails, and the decision falls through to the length of
the first chunk - so up to the Content-Length field itself the resulting
states coincide. -/
theorem c10_invalid_length_like_absent (cw : CompressWriter) (b : List Byte)
    (h : goAtoi cw.rw.headers.contentLength ≤ 0) :
    (cw.Write b).withCL "" = ((cw.withCL "").Write b).withCL "" := by
  have hga : goAtoi "" = 0 := rfl
  by_cases hd : cw.gzipDetect
  · by_cases hu : cw.gzipUse <;>
      by_cases hw : cw.gz.wroteStreamHeader <;>
      cases hcmt : cw.rw.committed <;>
      simp [CompressWriter.Write, CompressWriter.withCL, CompressWriter.gzipWrite,
        RealWriter.write, RealWriter.writeHeader, hd, hu, hw, hcmt]
  · by_cases hce : cw.rw.headers.contentEncoding = "" <;>
      by_cases hbl : b.length < gzippableMinSize <;>
      by_cases hct : cw.rw.headers.contentType = "" <;>
      by_cases hdeny : gzipKey (detectContentType b) ∈ notGzippableTypes <;>
      by_cases hst : 0 < cw.status <;>
      by_cases hu : cw.gzipUse <;>
      by_cases hw : cw.gz.wroteStreamHeader <;>
      cases hcmt : cw.rw.committed <;>
      simp [CompressWriter.Write, CompressWriter.runDetection, CompressWriter.enableGzip,
        CompressWriter.writePostponedHeader, CompressWriter.gzipWrite,
        CompressWriter.withCL, RealWriter.write, RealWriter.writeHeader,
        RealWriter.setContentType, RealWriter.setContentEncoding,
        RealWriter.delContentLength, h, hga, hd, hce, hbl, hct, hdeny, hst, hu, hw, hcmt]

/-- Witness for C10: the application set "Content-Length: abc". -/
theorem c10_invalid_length_like_absent_witness :
    goAtoi ({ rw := { headers := { contentLength := "abc" } } }
        : CompressWriter).rw.headers.contentLength ≤ 0 ∧
    (CompressWriter.Write { rw := { headers := { contentLength := "abc" } } } [9]).withCL ""
      = ((({ rw := { headers := { contentLength := "abc" } } }
            : CompressWriter).withCL "").Write [9]).withCL "" :=
  ⟨by decide,
    c10_invalid_length_like_absent { rw := { headers := { contentLength := "abc" } } } [9]
      (by decide)⟩

end Compress
